import Mathlib

/-!
Verification of the PosterMaker upscale pipeline (`app/imaging/pipeline.py`,
`app/imaging/sizes.py`, `app/controllers/job_controller.py`,
`app/models/enums.py`) against its natural-language specification.

The Python source is shallowly embedded: pure numeric code becomes functions
over `ℚ`/`ℕ`/`ℤ`, the external Real-ESRGAN subprocess becomes an oracle
function from (pass index, attempt index, attempt parameters) to an observed
result, and the filesystem effects relevant to the claims (output naming,
whether a file was left at the final output path, number of subprocess
invocations) are recorded in the returned outcome structure.

Definitions whose names start with `claim_` are modelled from the
specification text and exist only to be compared against the definitions
embedded from the source.
-/

namespace PosterMaker

/-- Python `round`: round half to even (banker's rounding), as used by
`int(round(x))` in `pipeline.py`. -/
def pyRound (q : ℚ) : ℤ :=
  let f := ⌊q⌋
  let r := q - (f : ℚ)
  if r < 1/2 then f
  else if 1/2 < r then f + 1
  else if f % 2 = 0 then f else f + 1

/-- Python `round` of the non-negative exact fraction `n / d`, computed with
natural-number arithmetic so that it evaluates inside the kernel.
`pyRoundN_eq` proves it agrees with `pyRound ((n : ℚ) / (d : ℚ))`. -/
def pyRoundN (n d : ℕ) : ℕ :=
  let f := n / d
  let r := n % d
  if 2 * r < d then f
  else if d < 2 * r then f + 1
  else if f % 2 = 0 then f else f + 1

/-- `A_SIZES_MM` from `pipeline.py` lines 46-50: the supported paper sizes,
millimetre (width, height) per lowercase key. -/
def A_SIZES_MM : List (String × ℕ × ℕ) :=
  [("a1", (594, 841)), ("a2", (420, 594)), ("a3", (297, 420))]

/-- ASCII lowercasing of a string, character by character (the effect of
Python's `str.lower()` on the paper-size keys in use). -/
def strLower (s : String) : String := String.mk (s.data.map Char.toLower)

/-- Paper lookup as performed by `target_pixels` (`paper.lower()` then a
dictionary lookup; a missing key raises `ValueError`, modelled as `none`). -/
def lookupPaper (paper : String) : Option (ℕ × ℕ) :=
  A_SIZES_MM.lookup (strLower paper)

/-- The pixel computation of `pipeline.target_pixels` lines 63-68 for known
millimetre dimensions: mm → inches (divide by 25.4), multiply by DPI,
`int(round(.))`, and swap the pixel pair when not portrait.  In exact
arithmetic `mm / 25.4 * dpi = mm * dpi * 10 / 254`, which is how the rounding
is computed here so that it evaluates in the kernel; `targetFromMM_spec`
proves the per-axis value equals `pyRound (mm / 25.4 * dpi)`. -/
def targetFromMM (wmm hmm dpi : ℕ) (portrait : Bool) : ℕ × ℕ :=
  let wpx := pyRoundN (wmm * dpi * 10) 254
  let hpx := pyRoundN (hmm * dpi * 10) 254
  if portrait then (wpx, hpx) else (hpx, wpx)

/-- `pipeline.target_pixels(paper, dpi, portrait)` lines 60-68.
`none` models the `ValueError` raised for an unsupported paper size. -/
def target_pixels (paper : String) (dpi : ℕ) (portrait : Bool) : Option (ℕ × ℕ) :=
  (lookupPaper paper).map fun wh => targetFromMM wh.1 wh.2 dpi portrait

/-- `sizes.target_pixels(width_mm, height_mm, dpi)` from `app/imaging/sizes.py`
lines 18-21: same conversion with a `max(1, ...)` floor per axis. -/
def sizes_target_pixels (width_mm height_mm : ℚ) (dpi : ℕ) : ℤ × ℤ :=
  (max 1 (pyRound (width_mm / (25.4 : ℚ) * (dpi : ℚ))),
   max 1 (pyRound (height_mm / (25.4 : ℚ) * (dpi : ℚ))))

/-- Modelled from the spec (claim C4's wording): convert each millimetre
dimension to inches by dividing by 25.4, multiply by the DPI, round to the
nearest integer with a minimum of 1 pixel per axis, and swap the two pixel
dimensions when `portrait` is false. -/
def claim_target_pixels (wmm hmm dpi : ℕ) (portrait : Bool) : ℕ × ℕ :=
  let w := max 1 (pyRound ((wmm : ℚ) / (25.4 : ℚ) * (dpi : ℚ))).toNat
  let h := max 1 (pyRound ((hmm : ℚ) / (25.4 : ℚ) * (dpi : ℚ))).toNat
  if portrait then (w, h) else (h, w)

/-- The observable properties of the file the engine leaves at the output
path, as inspected by `_validate_png_output` (`pipeline.py` lines 139-175):
existence, byte size, decodability by PIL, pixel dimensions, whether the
RGB-convert/`getbbox` content check itself ran without an exception
(`convertOk`), and whether `getbbox()` returned `None`, i.e. the image is
uniformly blank (`bboxNone`). -/
structure OutFile where
  present : Bool
  sizeBytes : ℕ
  decodable : Bool
  width : ℤ
  height : ℤ
  convertOk : Bool
  bboxNone : Bool
deriving Repr, DecidableEq

/-- `_validate_png_output` (`pipeline.py` lines 139-175): fails when the file
is missing, zero bytes, undecodable, has a non-positive dimension, or the
content check ran and found a uniformly blank image (a failing content check
only warns and lets validation pass). -/
def validate_png_output (f : OutFile) : Bool :=
  f.present && !(decide (f.sizeBytes = 0)) && f.decodable &&
    decide (0 < f.width) && decide (0 < f.height) && !(f.convertOk && f.bboxNone)

/-- The parameters of one engine attempt that the retry loop varies: the tile
size passed with `-t` and whether the `-x` half-precision flag is passed. -/
structure AttemptParams where
  tile : ℕ
  fp16 : Bool
deriving Repr, DecidableEq

/-- The observed behaviour of one subprocess invocation: the `NN%` values
parsed from its streamed output lines (in order), its exit code, the file it
left at the output path, and its captured combined stdout/stderr text. -/
structure AttemptResult where
  pcts : List ℕ
  exitCode : ℕ
  outFile : OutFile
  stdoutText : String
deriving Repr, DecidableEq

/-- An engine oracle for one pass: attempt index and attempt parameters
determine the observed subprocess behaviour. -/
abbrev Engine := ℕ → AttemptParams → AttemptResult

/-- Events observable by the caller of the pipeline: a progress value
delivered to `progress_cb` (already clamped to `[0,100]` by `_emit_progress`,
lines 118-127) or a preview notification. -/
inductive Ev where
  | prog (v : ℕ)
  | preview
deriving Repr, DecidableEq

/-- The progress mapping of `_run_ncnn_with_retry` lines 270-271: map a parsed
`pct` into the pass's `[base, base+step]` window with Python rounding, then
clamp into that window.  In exact arithmetic `(pct / 100) * step` is the
non-negative fraction `pct * step / 100`, rounded here with `pyRoundN`. -/
def mapPct (base step pct : ℕ) : ℕ :=
  let mapped := base + pyRoundN (pct * step) 100
  max base (min (base + step) mapped)

/-- The emissions produced while streaming one attempt's output lines
(`pipeline.py` lines 256-277): for each parsed percentage, when `step > 0`,
emit the mapped value only if it strictly exceeds `lastP`, which then becomes
the new high-water mark for this attempt. Returns the emitted values. -/
def streamEmits (base step : ℕ) : List ℕ → ℕ → List ℕ
  | [], _ => []
  | p :: rest, lastP =>
    if 0 < step then
      let m := mapPct base step p
      if lastP < m then m :: streamEmits base step rest m
      else streamEmits base step rest lastP
    else streamEmits base step rest lastP

/-- All progress events of one attempt: the unconditional `base+1` emission at
attempt start (line 253-254, which does not update the high-water mark) plus
the streamed emissions starting from a high-water mark of `base` (line 249
resets `last_progress = base_pct` at the start of every attempt). Emission
values are clamped to 100 by `_emit_progress`. -/
def attemptEvents (base step : ℕ) (r : AttemptResult) : List Ev :=
  (if 0 < step then [Ev.prog (min 100 (base + 1))] else []) ++
    (streamEmits base step r.pcts base).map fun v => Ev.prog (min 100 v)

/-- The two terminal failures of `_run_ncnn_with_retry`: a non-zero exit on
the last attempt (`RuntimeError` carrying the captured subprocess output,
line 290/295) or an invalid output PNG on the last attempt (`RuntimeError`
without the captured output, lines 299/306). -/
inductive RetryErr where
  | exitFail (output : String)
  | invalidPng
deriving Repr, DecidableEq

/-- One full execution of the retry loop: the parameters of every attempt
actually made, the events emitted, and either the validated output file or
the terminal error. -/
instance {ε α : Type} [DecidableEq ε] [DecidableEq α] : DecidableEq (Except ε α) :=
  fun x y =>
    match x, y with
    | .error a, .error b =>
      if h : a = b then .isTrue (by rw [h])
      else .isFalse (by intro hc; cases hc; exact h rfl)
    | .error _, .ok _ => .isFalse (fun hc => Except.noConfusion hc)
    | .ok _, .error _ => .isFalse (fun hc => Except.noConfusion hc)
    | .ok a, .ok b =>
      if h : a = b then .isTrue (by rw [h])
      else .isFalse (by intro hc; cases hc; exact h rfl)

structure RetryRun where
  attempts : List AttemptParams
  events : List Ev
  result : Except RetryErr OutFile
deriving Repr

instance : DecidableEq RetryRun := fun a b =>
  decidable_of_iff
    (a.attempts = b.attempts ∧ a.events = b.events ∧ a.result = b.result)
    (by cases a; cases b; simp [RetryRun.mk.injEq])

/-- The retry loop body of `_run_ncnn_with_retry` (`pipeline.py` lines
202-322), recursing on the number of attempts still allowed (`fuel`).
`i` is the 0-based attempt index; `tile` the current tile size. Per the
source: half-precision is passed only when requested and `i = 0` (line 227);
a non-zero exit retries with the same tile (lines 289-295); an invalid output
retries with the tile halved and floored at 64 (lines 298-306); success emits
the pass's final `base+step` progress (lines 309-310). -/
def retryAux (engine : Engine) (fp16 : Bool) (base step : ℕ) :
    ℕ → ℕ → ℕ → RetryRun
  | _, _, 0 => ⟨[], [], .error .invalidPng⟩
  | i, tile, fuel + 1 =>
    let ps : AttemptParams := ⟨tile, fp16 && (i == 0)⟩
    let r := engine i ps
    let evs := attemptEvents base step r
    if r.exitCode ≠ 0 then
      if fuel = 0 then ⟨[ps], evs, .error (.exitFail r.stdoutText)⟩
      else
        let rest := retryAux engine fp16 base step (i + 1) tile fuel
        ⟨ps :: rest.attempts, evs ++ rest.events, rest.result⟩
    else if validate_png_output r.outFile = false then
      if fuel = 0 then ⟨[ps], evs, .error .invalidPng⟩
      else
        let rest := retryAux engine fp16 base step (i + 1) (max 64 (tile / 2)) fuel
        ⟨ps :: rest.attempts, evs ++ rest.events, rest.result⟩
    else
      ⟨[ps], evs ++ (if 0 < step then [Ev.prog (min 100 (base + step))] else []),
        .ok r.outFile⟩

/-- `_run_ncnn_with_retry` (`pipeline.py` lines 178-322): clamp the tile size
into `[64, 512]` (line 195) and run up to `max_retries = 3` attempts. -/
def run_ncnn_with_retry (engine : Engine) (fp16 : Bool) (tilesize : ℕ)
    (base step : ℕ) : RetryRun :=
  retryAux engine fp16 base step 0 (max 64 (min tilesize 512)) 3

/-- `need_scale` as computed at `pipeline.py` lines 459, 488, 513:
`max(tw / cw, th / ch)` in exact arithmetic. -/
def needScale (tw th cw ch : ℕ) : ℚ :=
  max ((tw : ℚ) / (cw : ℚ)) ((th : ℚ) / (ch : ℚ))

/-- Decide `max (tw/cw, th/ch) > num/den` by integer cross-multiplication,
so the scheduling conditions of `process_exact` evaluate in the kernel.
For positive `cw`, `ch`, `den` this equals the comparison on `needScale`
(`needGt_iff`); the source only ever divides by positive image dimensions
(a zero dimension would raise `ZeroDivisionError` in Python). -/
def needGt (tw th cw ch num den : ℕ) : Bool :=
  decide (num * cw < tw * den) || decide (num * ch < th * den)

/-- Per-run state threaded through the pass stage of `process_exact`:
current image dimensions and content blankness, number of subprocess
invocations so far, scale factors of the engine passes invoked so far, and
the events emitted so far. -/
structure PassState where
  curW : ℕ
  curH : ℕ
  curBlank : Bool
  calls : ℕ
  passes : List ℕ
  events : List Ev
deriving Repr, DecidableEq

/-- One `_ai_pass` (`pipeline.py` lines 325-367): run the retry loop; on
success the current image becomes the engine's output (actual dimensions and
content taken from the produced file) and a preview is emitted (line 358);
on failure the error propagates with the state accumulated so far. -/
def doPass (eng : Engine) (scale : ℕ) (fp16 : Bool) (tile base step : ℕ)
    (st : PassState) : Except (RetryErr × PassState) PassState :=
  let r := run_ncnn_with_retry eng fp16 tile base step
  match r.result with
  | .error e =>
    .error (e, { st with calls := st.calls + r.attempts.length,
                         passes := st.passes ++ [scale],
                         events := st.events ++ r.events })
  | .ok f =>
    .ok { curW := f.width.toNat, curH := f.height.toNat, curBlank := f.bboxNone,
          calls := st.calls + r.attempts.length,
          passes := st.passes ++ [scale],
          events := st.events ++ r.events ++ [.preview] }

/-- The run state after the optional first (4×) engine pass of
`process_exact` (`pipeline.py` lines 458-489): emit progress 0 and 5, then
run a 4× pass in the `[5, 60]` progress window iff the initial
`need_scale > 3.2`. `engine n` is the oracle for the n-th pass slot. -/
def midState (engine : ℕ → Engine) (fp16 : Bool) (tile tw th sw sh : ℕ)
    (srcBlank : Bool) : Except (RetryErr × PassState) PassState :=
  let st0 : PassState := ⟨sw, sh, srcBlank, 0, [], [.prog 0, .prog 5]⟩
  if needGt tw th st0.curW st0.curH 16 5 then
    doPass (engine 0) 4 fp16 tile 5 55 st0
  else .ok st0

/-- The full pass stage of `process_exact` (`pipeline.py` lines 458-514):
after the optional 4× pass, recompute `need_scale` from the actual output
dimensions and run a single 2× pass in the `[60, 85]` window iff it still
exceeds 1.6. No further engine pass is ever attempted. -/
def upscaleStage (engine : ℕ → Engine) (fp16 : Bool) (tile tw th sw sh : ℕ)
    (srcBlank : Bool) : Except (RetryErr × PassState) PassState :=
  match midState engine fp16 tile tw th sw sh srcBlank with
  | .error e => .error e
  | .ok st1 =>
    if needGt tw th st1.curW st1.curH 8 5 then
      doPass (engine 1) 2 fp16 tile 60 25 st1
    else .ok st1

/-- The arguments of one `process_exact` call together with the observable
state of its environment: source image properties (`srcExists`, dimensions,
PIL mode, whether its content is uniformly blank), the fail-fast checks'
outcomes (`exeOk`, `modelsDirOk`, `modelFilesOk` for `_ensure_realesrgan_exe`,
`_detect_models_dir`, `_validate_model_exists`), and whether a file already
exists at the computed output path (`outFileExists`, for overwrite claims). -/
structure PRequest where
  stem : String
  srcExists : Bool
  srcW : ℕ
  srcH : ℕ
  srcMode : String
  srcBlank : Bool
  paper : String
  dpi : ℕ
  portrait : Bool
  exeOk : Bool
  modelsDirOk : Bool
  modelFilesOk : Bool
  tilesize : ℕ
  fp16 : Bool
  force600 : Bool
  keepNative : Bool
  outFileExists : Bool
deriving Repr, DecidableEq

/-- The final image written by a successful run: pixel dimensions, the DPI
metadata tag, the PIL mode it was saved in, whether its content is uniformly
blank, and the geometry of the source content inside the canvas (content
dimensions and top-left placement offsets). -/
structure FinalImage where
  width : ℕ
  height : ℕ
  dpiTag : ℕ
  mode : String
  blank : Bool
  contentW : ℕ
  contentH : ℕ
  offX : ℕ
  offY : ℕ
deriving Repr, DecidableEq

/-- The failures `process_exact` can raise: `ValueError` for configuration
problems (600 DPI without the override, unsupported paper), missing
files/executables/models (`FileNotFoundError`), an engine pass that exhausted
its retries, or the final output failing `_validate_png_output` (line 537). -/
inductive PipeErr where
  | config (msg : String)
  | notFound (msg : String)
  | engineFail (e : RetryErr)
  | finalInvalid
deriving Repr, DecidableEq

/-- The observable outcome of one `process_exact` run: its result, the number
of engine subprocess invocations, the scale factors of the engine passes
invoked, the emitted events, whether the run wrote (and left) a file at the
final output path, and the file name it computed for that path. -/
structure POutcome where
  result : Except PipeErr FinalImage
  engineCalls : ℕ
  passes : List ℕ
  events : List Ev
  wroteFinal : Bool
  outName : String
deriving Repr

instance : DecidableEq POutcome := fun a b =>
  decidable_of_iff
    (a.result = b.result ∧ a.engineCalls = b.engineCalls ∧ a.passes = b.passes ∧
      a.events = b.events ∧ a.wroteFinal = b.wroteFinal ∧ a.outName = b.outName)
    (by cases a; cases b; simp [POutcome.mk.injEq])

/-- The deterministic output file name computed by `process_exact`
(`pipeline.py` lines 430-431): `<stem>__<wmm>x<hmm>mm_<dpi>dpi.png`. -/
def pipelineOutName (stem : String) (wmm hmm dpi : ℕ) : String :=
  stem ++ "__" ++ toString wmm ++ "x" ++ toString hmm ++ "mm_" ++
    toString dpi ++ "dpi.png"

/-- `process_exact` (`pipeline.py` lines 371-551).  The checks run in source
order: the 600-DPI guard (403), input existence (406-408), executable /
models-directory / model-files fail-fast checks (414-416), tile clamping
(419), target computation (423, raising for an unsupported paper), output
naming (430-431), the initial progress emission (434), the keep-native early
exit (437-449), the pass stage (458-514), and the final stretch-resize to
exactly `(tw, th)` in RGB, save with the DPI tag, and output validation
(517-544).  The final save writes directly to the output path, so
`wroteFinal` is true from the save onwards even when the subsequent
validation fails. -/
def process_exact (engine : ℕ → Engine) (req : PRequest) : POutcome :=
  if req.dpi = 600 ∧ req.force600 = false then
    ⟨.error (.config "600 DPI is disabled by default."), 0, [], [], false, ""⟩
  else if req.srcExists = false then
    ⟨.error (.notFound "Input image not found"), 0, [], [], false, ""⟩
  else if req.exeOk = false then
    ⟨.error (.notFound "Real-ESRGAN executable not found"), 0, [], [], false, ""⟩
  else if req.modelsDirOk = false then
    ⟨.error (.notFound "Models folder was not found"), 0, [], [], false, ""⟩
  else if req.modelFilesOk = false then
    ⟨.error (.notFound "Required model files not found"), 0, [], [], false, ""⟩
  else
    let tile := max 64 (min req.tilesize 512)
    match lookupPaper req.paper with
    | none => ⟨.error (.config "Unsupported paper size"), 0, [], [], false, ""⟩
    | some (wmm, hmm) =>
      let twth := targetFromMM wmm hmm req.dpi req.portrait
      let tw := twth.1
      let th := twth.2
      let outName := pipelineOutName req.stem wmm hmm req.dpi
      if req.keepNative = true ∧ tw ≤ req.srcW ∧ th ≤ req.srcH then
        ⟨.ok ⟨req.srcW, req.srcH, req.dpi, req.srcMode, req.srcBlank,
              req.srcW, req.srcH, 0, 0⟩,
         0, [], [.prog 0, .prog 50, .preview, .prog 100], true, outName⟩
      else
        match upscaleStage engine req.fp16 tile tw th req.srcW req.srcH
                req.srcBlank with
        | .error (e, st) =>
          ⟨.error (.engineFail e), st.calls, st.passes, st.events, false, outName⟩
        | .ok st =>
          let evs := st.events ++ [.prog 85, .prog 95]
          let finalFile : OutFile := ⟨true, 1, true, (tw : ℤ), (th : ℤ), true, st.curBlank⟩
          if validate_png_output finalFile = false then
            ⟨.error .finalInvalid, st.calls, st.passes, evs, true, outName⟩
          else
            ⟨.ok ⟨tw, th, req.dpi, "RGB", st.curBlank, tw, th, 0, 0⟩,
             st.calls, st.passes, evs ++ [.preview, .prog 100], true, outName⟩

/-- The progress values among a run's events, in emission order. -/
def progsOf (evs : List Ev) : List ℕ :=
  evs.filterMap fun e => match e with | .prog v => some v | .preview => none

/-- Number of colour channels of a PIL image mode (PIL reference data). -/
def modeChannels : String → ℕ
  | "RGB" => 3
  | "RGBA" => 4
  | "CMYK" => 4
  | "LA" => 2
  | "L" => 1
  | "P" => 1
  | "1" => 1
  | "I" => 1
  | "F" => 1
  | _ => 0

/-- Modelled from the spec (claim C2's scheduler): with
`need = max(target_w/current_w, target_h/current_h)`, return a 4× pass when
`need > 3.2`, else a 2× pass when `need > 1.6`, else no further pass.
The comparisons are decided in exact integer arithmetic (3.2 = 16/5,
1.6 = 8/5); `needGt_iff` proves they equal the spec's ratio comparisons. -/
def claim_schedNext (tw th cw ch : ℕ) : Option ℕ :=
  if needGt tw th cw ch 16 5 then some 4
  else if needGt tw th cw ch 8 5 then some 2
  else none

/-- Modelled from the spec (claim C2's orchestrator loop): while the
scheduler still returns a scale factor, invoke another engine pass, updating
the current dimensions from the pass's actual output (`growth s dims`). The
fuel bounds the loop for executability. -/
def claim_passLoop (growth : ℕ → ℕ × ℕ → ℕ × ℕ) (tw th : ℕ) :
    ℕ → ℕ × ℕ → List ℕ
  | 0, _ => []
  | fuel + 1, (cw, ch) =>
    match claim_schedNext tw th cw ch with
    | none => []
    | some s => s :: claim_passLoop growth tw th fuel (growth s (cw, ch))

/-- The geometry of a composition: canvas dimensions, the dimensions of the
(scaled) source content inside it, and the content's top-left offsets. -/
structure Composed where
  canvasW : ℕ
  canvasH : ℕ
  contentW : ℕ
  contentH : ℕ
  offX : ℕ
  offY : ℕ
deriving Repr, DecidableEq

/-- Modelled from the spec (claim C6, FIT_WITH_PAD): scale the source by
`min(target_w/src_w, target_h/src_h)` preserving aspect ratio, and centre it
on a canvas of exactly `(target_w, target_h)` with offsets
`floor((target - scaled)/2)` per axis. -/
def claim_fit_with_pad (sw sh tw th : ℕ) : Composed :=
  let scale : ℚ := min ((tw : ℚ) / (sw : ℚ)) ((th : ℚ) / (sh : ℚ))
  let cw := (pyRound ((sw : ℚ) * scale)).toNat
  let ch := (pyRound ((sh : ℚ) * scale)).toNat
  ⟨tw, th, cw, ch, (tw - cw) / 2, (th - ch) / 2⟩

/-- The composition actually performed by `process_exact` lines 522-533:
`im_final.resize((tw, th))` — a direct stretch, so the content fills the
whole canvas at offset (0,0). -/
def pipeline_compose (tw th : ℕ) : Composed := ⟨tw, th, tw, th, 0, 0⟩

/-- The i-th candidate name tried by `default_output_namer`
(`app/controllers/job_controller.py` lines 8-17): the deterministic pattern,
with `_<i>` appended before the extension for `i ≥ 1`. The `:.0f`-formatted
millimetre values are modelled for integral millimetre settings. -/
def namer_candidate (base : String) (wmm hmm dpi : ℕ) (ext : String) (i : ℕ) :
    String :=
  base ++ "__" ++ toString wmm ++ "x" ++ toString hmm ++ "mm_" ++
    toString dpi ++ "dpi" ++ (if i = 0 then "" else "_" ++ toString i) ++
    "." ++ ext

/-- The collision loop of `default_output_namer`: keep incrementing the
suffix while the candidate exists. `existing` is the set of names already
present in the output directory; the fuel makes the loop executable and is
chosen large enough at the entry point. -/
def namerAux (base : String) (wmm hmm dpi : ℕ) (ext : String)
    (existing : List String) : ℕ → ℕ → String
  | 0, i => namer_candidate base wmm hmm dpi ext i
  | fuel + 1, i =>
    let c := namer_candidate base wmm hmm dpi ext i
    if c ∈ existing then namerAux base wmm hmm dpi ext existing fuel (i + 1)
    else c

/-- `default_output_namer` (`job_controller.py` lines 8-17). -/
def default_output_namer (base : String) (wmm hmm dpi : ℕ) (ext : String)
    (existing : List String) : String :=
  namerAux base wmm hmm dpi ext existing (existing.length + 1) 0

/-- A well-behaved engine: every attempt of every pass exits 0 and leaves a
valid, non-blank 400×400 PNG. -/
def okEngine400 : ℕ → Engine :=
  fun _ _ _ => ⟨[], 0, ⟨true, 10, true, 400, 400, true, false⟩, "ok"⟩

/-- An engine whose every attempt exits 0 but leaves a uniformly blank
output file, so that `_validate_png_output` fails on every attempt. -/
def engineAllBlank : Engine :=
  fun _ _ => ⟨[], 0, ⟨true, 10, true, 16, 16, true, true⟩, "o"⟩

/-- An exactly-multiplying engine for a 100×100 source: the first pass slot
returns a valid 400×400 output (4×), the second a valid 800×800 output (2×). -/
def engineTwoPass : ℕ → Engine := fun p _ _ =>
  if p = 0 then ⟨[], 0, ⟨true, 10, true, 400, 400, true, false⟩, ""⟩
  else ⟨[], 0, ⟨true, 10, true, 800, 800, true, false⟩, ""⟩

/-- An engine whose first attempt streams a `90%` line and then exits 1, and
whose second attempt streams `100%` and succeeds with a valid 6000×8000
output. -/
def engineRetryThenOk : ℕ → Engine := fun _ a _ =>
  if a = 0 then ⟨[90], 1, ⟨false, 0, false, 0, 0, false, false⟩, "boom"⟩
  else ⟨[100], 0, ⟨true, 10, true, 6000, 8000, true, false⟩, "ok"⟩

/-- A baseline request: 8000×10000 non-blank RGB source, paper a1 at 300 DPI
portrait, all fail-fast checks passing, default tile size and fp16, no
overrides. -/
def reqBase : PRequest :=
  ⟨"poster", true, 8000, 10000, "RGB", false, "a1", 300, true,
   true, true, true, 512, true, false, false, false⟩

theorem floor_le_pyRound (q : ℚ) : ⌊q⌋ ≤ pyRound q := by
  unfold pyRound
  dsimp only
  split_ifs <;> omega

theorem one_le_pyRound {q : ℚ} (h : 1 ≤ q) : 1 ≤ pyRound q := by
  have h1 : (1 : ℤ) ≤ ⌊q⌋ := by
    have := Int.le_floor.mpr (by exact_mod_cast h : ((1 : ℤ) : ℚ) ≤ q)
    exact this
  exact le_trans h1 (floor_le_pyRound q)

theorem pyRound_intCast (m : ℤ) : pyRound (m : ℚ) = m := by
  unfold pyRound
  norm_num

theorem pyRoundN_eq (n d : ℕ) (hd : 0 < d) :
    (pyRoundN n d : ℤ) = pyRound ((n : ℚ) / (d : ℚ)) := by
  have hdq : (0 : ℚ) < (d : ℚ) := by exact_mod_cast hd
  have hfloor : ⌊(n : ℚ) / (d : ℚ)⌋ = ((n / d : ℕ) : ℤ) := by
    exact_mod_cast Rat.floor_natCast_div_natCast n d
  have hnd : (d : ℚ) * ((n / d : ℕ) : ℚ) + ((n % d : ℕ) : ℚ) = (n : ℚ) := by
    exact_mod_cast Nat.div_add_mod n d
  have hfrac : (n : ℚ) / (d : ℚ) - ((n / d : ℕ) : ℚ) = ((n % d : ℕ) : ℚ) / (d : ℚ) := by
    field_simp
    linarith [hnd]
  have c1 : ((n : ℚ) / (d : ℚ) - (((n / d : ℕ) : ℤ) : ℚ) < 1/2) ↔ (2 * (n % d) < d) := by
    rw [Int.cast_natCast, hfrac, div_lt_div_iff₀ hdq (by norm_num : (0:ℚ) < 2), one_mul]
    norm_cast
    omega
  have c2 : (1/2 < (n : ℚ) / (d : ℚ) - (((n / d : ℕ) : ℤ) : ℚ)) ↔ (d < 2 * (n % d)) := by
    rw [Int.cast_natCast, hfrac, div_lt_div_iff₀ (by norm_num : (0:ℚ) < 2) hdq, one_mul]
    norm_cast
    omega
  have c3 : (((n / d : ℕ) : ℤ) % 2 = 0) ↔ ((n / d) % 2 = 0) := by
    omega
  unfold pyRoundN pyRound
  simp only [hfloor, c1, c2, c3]
  split_ifs <;> push_cast <;> ring

theorem needGt_iff {tw th cw ch num den : ℕ} (hcw : 0 < cw) (hch : 0 < ch)
    (hden : 0 < den) :
    needGt tw th cw ch num den = true ↔
      needScale tw th cw ch > (num : ℚ) / (den : ℚ) := by
  have hcwq : (0 : ℚ) < (cw : ℚ) := by exact_mod_cast hcw
  have hchq : (0 : ℚ) < (ch : ℚ) := by exact_mod_cast hch
  have hdenq : (0 : ℚ) < (den : ℚ) := by exact_mod_cast hden
  unfold needGt needScale
  rw [gt_iff_lt, lt_max_iff]
  rw [div_lt_div_iff₀ hdenq hcwq, div_lt_div_iff₀ hdenq hchq]
  simp only [Bool.or_eq_true, decide_eq_true_eq]
  constructor
  · rintro (h | h)
    · left; exact_mod_cast (by exact_mod_cast h : ((num * cw : ℕ) : ℚ) < ((tw * den : ℕ) : ℚ))
    · right; exact_mod_cast (by exact_mod_cast h : ((num * ch : ℕ) : ℚ) < ((th * den : ℕ) : ℚ))
  · rintro (h | h)
    · left; exact_mod_cast h
    · right; exact_mod_cast h

theorem process_exact_keepNative (engine : ℕ → Engine) (req : PRequest)
    (wmm hmm tw th : ℕ)
    (hguard : ¬(req.dpi = 600 ∧ req.force600 = false))
    (hsrc : req.srcExists = true) (hexe : req.exeOk = true)
    (hm1 : req.modelsDirOk = true) (hm2 : req.modelFilesOk = true)
    (hl : lookupPaper req.paper = some (wmm, hmm))
    (htp : targetFromMM wmm hmm req.dpi req.portrait = (tw, th))
    (hkn : req.keepNative = true) (hw : tw ≤ req.srcW) (hh : th ≤ req.srcH) :
    process_exact engine req =
      ⟨.ok ⟨req.srcW, req.srcH, req.dpi, req.srcMode, req.srcBlank,
            req.srcW, req.srcH, 0, 0⟩,
       0, [], [.prog 0, .prog 50, .preview, .prog 100], true,
       pipelineOutName req.stem wmm hmm req.dpi⟩ := by
  unfold process_exact
  rw [if_neg hguard]
  rw [if_neg (by simp [hsrc])]
  rw [if_neg (by simp [hexe])]
  rw [if_neg (by simp [hm1])]
  rw [if_neg (by simp [hm2])]
  simp only [hl, htp]
  rw [if_pos ⟨hkn, hw, hh⟩]

theorem process_exact_upscale_error (engine : ℕ → Engine) (req : PRequest)
    (wmm hmm tw th : ℕ) (e : RetryErr) (st : PassState)
    (hguard : ¬(req.dpi = 600 ∧ req.force600 = false))
    (hsrc : req.srcExists = true) (hexe : req.exeOk = true)
    (hm1 : req.modelsDirOk = true) (hm2 : req.modelFilesOk = true)
    (hl : lookupPaper req.paper = some (wmm, hmm))
    (htp : targetFromMM wmm hmm req.dpi req.portrait = (tw, th))
    (hpath : ¬(req.keepNative = true ∧ tw ≤ req.srcW ∧ th ≤ req.srcH))
    (hstage : upscaleStage engine req.fp16 (max 64 (min req.tilesize 512))
        tw th req.srcW req.srcH req.srcBlank = .error (e, st)) :
    process_exact engine req =
      ⟨.error (.engineFail e), st.calls, st.passes, st.events, false,
       pipelineOutName req.stem wmm hmm req.dpi⟩ := by
  unfold process_exact
  rw [if_neg hguard]
  rw [if_neg (by simp [hsrc])]
  rw [if_neg (by simp [hexe])]
  rw [if_neg (by simp [hm1])]
  rw [if_neg (by simp [hm2])]
  simp only [hl, htp]
  rw [if_neg hpath]
  simp only [hstage]

theorem process_exact_upscale_ok (engine : ℕ → Engine) (req : PRequest)
    (wmm hmm tw th : ℕ) (st : PassState)
    (hguard : ¬(req.dpi = 600 ∧ req.force600 = false))
    (hsrc : req.srcExists = true) (hexe : req.exeOk = true)
    (hm1 : req.modelsDirOk = true) (hm2 : req.modelFilesOk = true)
    (hl : lookupPaper req.paper = some (wmm, hmm))
    (htp : targetFromMM wmm hmm req.dpi req.portrait = (tw, th))
    (hpath : ¬(req.keepNative = true ∧ tw ≤ req.srcW ∧ th ≤ req.srcH))
    (hstage : upscaleStage engine req.fp16 (max 64 (min req.tilesize 512))
        tw th req.srcW req.srcH req.srcBlank = .ok st)
    (hblank : st.curBlank = false) (htw : 0 < tw) (hth : 0 < th) :
    process_exact engine req =
      ⟨.ok ⟨tw, th, req.dpi, "RGB", false, tw, th, 0, 0⟩,
       st.calls, st.passes,
       st.events ++ [.prog 85, .prog 95, .preview, .prog 100], true,
       pipelineOutName req.stem wmm hmm req.dpi⟩ := by
  unfold process_exact
  rw [if_neg hguard]
  rw [if_neg (by simp [hsrc])]
  rw [if_neg (by simp [hexe])]
  rw [if_neg (by simp [hm1])]
  rw [if_neg (by simp [hm2])]
  simp only [hl, htp]
  rw [if_neg hpath]
  simp only [hstage]
  rw [if_neg (by simp [validate_png_output, hblank, htw, hth])]
  simp [hblank, List.append_assoc]

theorem process_exact_upscale_blank (engine : ℕ → Engine) (req : PRequest)
    (wmm hmm tw th : ℕ) (st : PassState)
    (hguard : ¬(req.dpi = 600 ∧ req.force600 = false))
    (hsrc : req.srcExists = true) (hexe : req.exeOk = true)
    (hm1 : req.modelsDirOk = true) (hm2 : req.modelFilesOk = true)
    (hl : lookupPaper req.paper = some (wmm, hmm))
    (htp : targetFromMM wmm hmm req.dpi req.portrait = (tw, th))
    (hpath : ¬(req.keepNative = true ∧ tw ≤ req.srcW ∧ th ≤ req.srcH))
    (hstage : upscaleStage engine req.fp16 (max 64 (min req.tilesize 512))
        tw th req.srcW req.srcH req.srcBlank = .ok st)
    (hblank : st.curBlank = true) :
    process_exact engine req =
      ⟨.error .finalInvalid, st.calls, st.passes,
       st.events ++ [.prog 85, .prog 95], true,
       pipelineOutName req.stem wmm hmm req.dpi⟩ := by
  unfold process_exact
  rw [if_neg hguard]
  rw [if_neg (by simp [hsrc])]
  rw [if_neg (by simp [hexe])]
  rw [if_neg (by simp [hm1])]
  rw [if_neg (by simp [hm2])]
  simp only [hl, htp]
  rw [if_neg hpath]
  simp only [hstage]
  rw [if_pos (by simp [validate_png_output, hblank])]

/-- C8: every `process_exact` call with `dpi = 600` and the force-600-DPI
override unset fails immediately with a configuration error (`ValueError` in
the source, raised before any other work), with zero engine subprocess
invocations, no passes, no emitted events, and nothing written at any output
path. -/
theorem c8_dpi600_rejected (engine : ℕ → Engine) (req : PRequest)
    (h6 : req.dpi = 600) (hf : req.force600 = false) :
    process_exact engine req =
      ⟨.error (.config "600 DPI is disabled by default."), 0, [], [], false, ""⟩ := by
  unfold process_exact
  rw [if_pos ⟨h6, hf⟩]

/-- Witness for C8 at a concrete input. -/
theorem c8_dpi600_rejected_witness :
    process_exact okEngine400 { reqBase with dpi := 600 } =
      ⟨.error (.config "600 DPI is disabled by default."), 0, [], [], false, ""⟩ :=
  c8_dpi600_rejected okEngine400 { reqBase with dpi := 600 } rfl rfl

/-- C5: for every run with the keep-native flag set whose source dimensions
are at least the target in both axes (and whose fail-fast validation passes),
`process_exact` performs zero engine subprocess invocations and succeeds with
an output whose pixel dimensions equal the source's and whose DPI tag equals
the requested DPI. -/
theorem c5_keep_native (engine : ℕ → Engine) (req : PRequest)
    (wmm hmm tw th : ℕ)
    (hguard : ¬(req.dpi = 600 ∧ req.force600 = false))
    (hsrc : req.srcExists = true) (hexe : req.exeOk = true)
    (hm1 : req.modelsDirOk = true) (hm2 : req.modelFilesOk = true)
    (hl : lookupPaper req.paper = some (wmm, hmm))
    (htp : targetFromMM wmm hmm req.dpi req.portrait = (tw, th))
    (hkn : req.keepNative = true) (hw : tw ≤ req.srcW) (hh : th ≤ req.srcH) :
    (process_exact engine req).engineCalls = 0 ∧
    (process_exact engine req).passes = [] ∧
    (process_exact engine req).result =
      .ok ⟨req.srcW, req.srcH, req.dpi, req.srcMode, req.srcBlank,
           req.srcW, req.srcH, 0, 0⟩ := by
  rw [process_exact_keepNative engine req wmm hmm tw th hguard hsrc hexe hm1 hm2
    hl htp hkn hw hh]
  exact ⟨rfl, rfl, rfl⟩

/-- Witness for C5 at a concrete input: keep-native run of an 8000×10000
source against the 7016×9933 A1@300 target. -/
theorem c5_keep_native_witness :
    (process_exact okEngine400 { reqBase with keepNative := true }).engineCalls = 0 ∧
    (process_exact okEngine400 { reqBase with keepNative := true }).passes = [] ∧
    (process_exact okEngine400 { reqBase with keepNative := true }).result =
      .ok ⟨8000, 10000, 300, "RGB", false, 8000, 10000, 0, 0⟩ :=
  c5_keep_native okEngine400 { reqBase with keepNative := true }
    594 841 7016 9933 (by decide) rfl rfl rfl rfl (by decide) (by decide)
    rfl (by decide) (by decide)

/-- C10 (implicit): whenever `process_exact` takes the upscaling path (not
the keep-native early exit) and succeeds, the saved poster is in RGB mode
with exactly three channels, whatever the source image's mode was. -/
theorem c10_final_rgb (engine : ℕ → Engine) (req : PRequest)
    (wmm hmm tw th : ℕ) (img : FinalImage)
    (hl : lookupPaper req.paper = some (wmm, hmm))
    (htp : targetFromMM wmm hmm req.dpi req.portrait = (tw, th))
    (hpath : ¬(req.keepNative = true ∧ tw ≤ req.srcW ∧ th ≤ req.srcH))
    (hok : (process_exact engine req).result = .ok img) :
    img.mode = "RGB" ∧ modeChannels img.mode = 3 := by
  unfold process_exact at hok
  split_ifs at hok <;> try simp at hok
  rw [hl] at hok
  simp only [Option.map_some'] at hok
  rw [htp] at hok
  dsimp only at hok
  rw [if_neg hpath] at hok
  rcases hstage : upscaleStage engine req.fp16 (64 ⊔ req.tilesize ⊓ 512)
      tw th req.srcW req.srcH req.srcBlank with ⟨e, st⟩ | st
  · rw [hstage] at hok
    simp at hok
  · rw [hstage] at hok
    dsimp only at hok
    by_cases hv : validate_png_output
        ⟨true, 1, true, (tw : ℤ), (th : ℤ), true, st.curBlank⟩ = false
    · rw [if_pos hv] at hok
      simp at hok
    · rw [if_neg hv] at hok
      simp only [Except.ok.injEq] at hok
      subst hok
      exact ⟨rfl, rfl⟩

/-- Witness for C10 at a concrete input: the upscale of an 8000×10000 source
to A1@300 succeeds in RGB with three channels. -/
theorem c10_final_rgb_witness :
    (process_exact okEngine400 reqBase).result =
      Except.ok ⟨7016, 9933, 300, "RGB", false, 7016, 9933, 0, 0⟩ ∧
    modeChannels "RGB" = 3 :=
  ⟨by decide,
   (c10_final_rgb okEngine400 reqBase 594 841 7016 9933
      ⟨7016, 9933, 300, "RGB", false, 7016, 9933, 0, 0⟩
      (by decide) (by decide) (by decide) (by decide)).2⟩

/-- C7, counterexample to the claim as stated: a run whose source image is
uniformly blank (and already at least target-sized, so no engine pass runs)
fails the final output validation (`pipeline.py` line 536-537) *after* the
final image has been saved directly to the final output path (line 533), so
this failed run leaves the corrupt file at the final output path. -/
theorem c7_counterexample :
    (process_exact okEngine400 { reqBase with srcBlank := true }).result =
      Except.error PipeErr.finalInvalid ∧
    (process_exact okEngine400 { reqBase with srcBlank := true }).wroteFinal = true := by
  exact ⟨by decide, by decide⟩

/-- C7, amended: a failed `process_exact` run leaves a file written by the
run at the final output path exactly when the failure is the final
post-save validation failure; every failure before the final save (config
errors, missing files, engine failures) leaves nothing at the final path.
The final image is written directly to the final path, not via a temporary
file and atomic rename. -/
theorem c7_amended (engine : ℕ → Engine) (req : PRequest) (e : PipeErr)
    (hres : (process_exact engine req).result = .error e) :
    ((process_exact engine req).wroteFinal = true ↔ e = .finalInvalid) := by
  unfold process_exact at hres ⊢
  split_ifs at hres ⊢ <;> try simp_all
  all_goals try (subst hres; simp)
  all_goals (
    rcases hlp : lookupPaper req.paper with _ | ⟨wmm, hmm⟩ <;>
      (try rw [hlp] at hres) <;> (try rw [hlp]) <;>
      (try dsimp only at hres ⊢) <;> try simp_all)
  all_goals try (subst hres; simp)
  all_goals (
    rcases hstage : upscaleStage engine req.fp16 (64 ⊔ req.tilesize ⊓ 512)
        (targetFromMM wmm hmm req.dpi req.portrait).1
        (targetFromMM wmm hmm req.dpi req.portrait).2
        req.srcW req.srcH req.srcBlank with ⟨e2, st⟩ | st <;>
      (try rw [hstage] at hres) <;> (try rw [hstage]) <;>
      (try dsimp only at hres ⊢) <;> try simp_all)
  all_goals try (subst hres; simp)
  all_goals (split_ifs at hres ⊢ <;> try simp_all)
  all_goals try (subst hres; simp)

/-- Witness for the amended C7 at a concrete input: the blank-source run
fails with `finalInvalid` and its file is indeed the one left behind. -/
theorem c7_amended_witness :
    ((process_exact okEngine400 { reqBase with srcBlank := true }).wroteFinal = true ↔
      PipeErr.finalInvalid = PipeErr.finalInvalid) :=
  c7_amended okEngine400 { reqBase with srcBlank := true } .finalInvalid (by decide)

/-- C6, counterexample to the claim as stated: with an 8000×10000 source and
the 7016×9933 A1@300 target (no engine pass needed), the pipeline's final
composition fills the whole canvas with stretched content at offset (0,0)
(`pipeline.py` line 528 resizes directly to the target size), whereas the
claimed FIT_WITH_PAD geometry scales by min(7016/8000, 9933/10000) = 0.877,
giving 7016×8770 content centred at offsets (0, 581).  The code's content is
also distorted: 7016/9933 differs from the source ratio 8000/10000.  The
`fit_mode` setting (`FitMode.FIT`) is never consulted by the pipeline. -/
theorem c6_counterexample :
    (process_exact okEngine400 reqBase).result =
      Except.ok ⟨7016, 9933, 300, "RGB", false, 7016, 9933, 0, 0⟩ ∧
    claim_fit_with_pad 8000 10000 7016 9933 = ⟨7016, 9933, 7016, 8770, 0, 581⟩ ∧
    pipeline_compose 7016 9933 ≠ claim_fit_with_pad 8000 10000 7016 9933 ∧
    (7016 : ℕ) * 10000 ≠ 9933 * 8000 := by
  have h2 : claim_fit_with_pad 8000 10000 7016 9933 = ⟨7016, 9933, 7016, 8770, 0, 581⟩ := by
    have hmin : min ((7016 : ℚ) / (8000 : ℚ)) ((9933 : ℚ) / (10000 : ℚ)) = 877 / 1000 := by
      rw [min_eq_left] <;> norm_num
    have e1 : (8000 : ℚ) * (877 / 1000) = ((7016 : ℤ) : ℚ) := by norm_num
    have e2 : (10000 : ℚ) * (877 / 1000) = ((8770 : ℤ) : ℚ) := by norm_num
    simp only [claim_fit_with_pad]
    push_cast
    rw [hmin, e1, e2, pyRound_intCast, pyRound_intCast]
    decide
  refine ⟨by decide, h2, ?_, by decide⟩
  rw [h2]
  decide

/-- C6, amended: the pipeline never consults the fit policy; on the
upscaling path every successful run's final composition is a direct stretch:
the output canvas is exactly the requested `(tw, th)` (that part of the claim
holds), but the content fills the whole canvas at offset (0, 0) with no
aspect-preserving scaling, centering or padding. -/
theorem c6_amended (engine : ℕ → Engine) (req : PRequest)
    (wmm hmm tw th : ℕ) (img : FinalImage)
    (hl : lookupPaper req.paper = some (wmm, hmm))
    (htp : targetFromMM wmm hmm req.dpi req.portrait = (tw, th))
    (hpath : ¬(req.keepNative = true ∧ tw ≤ req.srcW ∧ th ≤ req.srcH))
    (hok : (process_exact engine req).result = .ok img) :
    img.width = tw ∧ img.height = th ∧
    (⟨img.width, img.height, img.contentW, img.contentH, img.offX, img.offY⟩ :
      Composed) = pipeline_compose tw th := by
  unfold process_exact at hok
  split_ifs at hok <;> try simp at hok
  rw [hl] at hok
  simp only [Option.map_some'] at hok
  rw [htp] at hok
  dsimp only at hok
  rw [if_neg hpath] at hok
  rcases hstage : upscaleStage engine req.fp16 (64 ⊔ req.tilesize ⊓ 512)
      tw th req.srcW req.srcH req.srcBlank with ⟨e, st⟩ | st
  · rw [hstage] at hok
    simp at hok
  · rw [hstage] at hok
    dsimp only at hok
    by_cases hv : validate_png_output
        ⟨true, 1, true, (tw : ℤ), (th : ℤ), true, st.curBlank⟩ = false
    · rw [if_pos hv] at hok
      simp at hok
    · rw [if_neg hv] at hok
      simp only [Except.ok.injEq] at hok
      subst hok
      exact ⟨rfl, rfl, rfl⟩

/-- Witness for the amended C6 at a concrete input. -/
theorem c6_amended_witness :
    ((⟨7016, 9933, 7016, 9933, 0, 0⟩ : Composed) = pipeline_compose 7016 9933) :=
  (c6_amended okEngine400 reqBase 594 841 7016 9933
    ⟨7016, 9933, 300, "RGB", false, 7016, 9933, 0, 0⟩
    (by decide) (by decide) (by decide) (by decide)).2.2

theorem doPass_ok_passes (eng : Engine) (scale : ℕ) (fp16 : Bool)
    (tile base step : ℕ) (st st2 : PassState)
    (h : doPass eng scale fp16 tile base step st = .ok st2) :
    st2.passes = st.passes ++ [scale] := by
  unfold doPass at h
  dsimp only at h
  split at h
  · simp at h
  · simp only [Except.ok.injEq] at h
    subst h
    rfl

theorem midState_passes (engine : ℕ → Engine) (fp16 : Bool)
    (tile tw th sw sh : ℕ) (srcBlank : Bool) (st1 : PassState)
    (h : midState engine fp16 tile tw th sw sh srcBlank = .ok st1) :
    st1.passes = if needGt tw th sw sh 16 5 then [4] else [] := by
  unfold midState at h
  dsimp only at h
  split_ifs at h with hc
  · rw [if_pos hc]
    have := doPass_ok_passes _ _ _ _ _ _ _ _ h
    simpa using this
  · rw [if_neg hc]
    simp only [Except.ok.injEq] at h
    subst h
    rfl

/-- C2, counterexample to the claim as stated: with a 100×100 source and the
7016×9933 A1@300 target, an exactly-multiplying engine gives the pipeline
pass sequence [4, 2] (one 4× pass, then one 2× pass, `pipeline.py` lines
467-514), whereas the claimed orchestrator — which keeps invoking passes
while the scheduler still returns a factor — would run [4, 4, 4]
(need stays above 3.2 after the first and second 4× passes). -/
theorem c2_counterexample :
    (process_exact engineTwoPass { reqBase with srcW := 100, srcH := 100 }).passes
      = [4, 2] ∧
    claim_passLoop (fun s d => (s * d.1, s * d.2)) 7016 9933 10 (100, 100)
      = [4, 4, 4] ∧
    ([4, 2] : List ℕ) ≠ [4, 4, 4] := by
  exact ⟨by decide, by decide, by decide⟩

/-- C2, amended: `need` is computed as `max(target_w/current_w,
target_h/current_h)`; a single 4× pass runs iff the initial `need`
exceeds 3.2; `need` is then recomputed from the first pass's actual output
dimensions and a single 2× pass runs iff it still exceeds 1.6; after that no
further engine pass runs no matter how large the remaining `need` is (at
most two passes per run), the remaining gap being closed by the final
resample. -/
theorem c2_amended (engine : ℕ → Engine) (fp16 : Bool)
    (tile tw th sw sh : ℕ) (srcBlank : Bool) (st1 st : PassState)
    (hsw : 0 < sw) (hsh : 0 < sh) (hw1 : 0 < st1.curW) (hh1 : 0 < st1.curH)
    (hmid : midState engine fp16 tile tw th sw sh srcBlank = .ok st1)
    (hst : upscaleStage engine fp16 tile tw th sw sh srcBlank = .ok st) :
    ((4 ∈ st1.passes) ↔ needScale tw th sw sh > (3.2 : ℚ)) ∧
    ((2 ∈ st.passes) ↔ needScale tw th st1.curW st1.curH > (1.6 : ℚ)) ∧
    (st.passes = st1.passes ∨ st.passes = st1.passes ++ [2]) ∧
    st.passes.length ≤ 2 := by
  have h32 : ((16 : ℕ) : ℚ) / ((5 : ℕ) : ℚ) = (3.2 : ℚ) := by norm_num
  have h16 : ((8 : ℕ) : ℚ) / ((5 : ℕ) : ℚ) = (1.6 : ℚ) := by norm_num
  have hp1 := midState_passes engine fp16 tile tw th sw sh srcBlank st1 hmid
  have hiff1 : (4 ∈ st1.passes) ↔ needScale tw th sw sh > (3.2 : ℚ) := by
    rw [← h32, ← needGt_iff hsw hsh (by norm_num)]
    rw [hp1]
    split_ifs with hc <;> simp [hc]
  have hlen1 : st1.passes.length ≤ 1 := by
    rw [hp1]; split_ifs <;> simp
  have h2no : 2 ∉ st1.passes := by
    rw [hp1]; split_ifs <;> simp
  unfold upscaleStage at hst
  rw [hmid] at hst
  dsimp only at hst
  split_ifs at hst with hc2
  · have hp2 := doPass_ok_passes _ _ _ _ _ _ _ _ hst
    refine ⟨hiff1, ?_, Or.inr hp2, ?_⟩
    · rw [hp2]
      have : needScale tw th st1.curW st1.curH > (1.6 : ℚ) := by
        rw [← h16, ← needGt_iff hw1 hh1 (by norm_num)]
        exact hc2
      simp [this]
    · rw [hp2]
      simp only [List.length_append, List.length_cons, List.length_nil]
      omega
  · simp only [Except.ok.injEq] at hst
    subst hst
    refine ⟨hiff1, ?_, Or.inl rfl, le_trans hlen1 (by norm_num)⟩
    have : ¬ needScale tw th st1.curW st1.curH > (1.6 : ℚ) := by
      rw [← h16, ← needGt_iff hw1 hh1 (by norm_num)]
      simp [hc2]
    simp [h2no, this]

/-- Witness for the amended C2 at a concrete input: the two-pass run of a
100×100 source towards the 7016×9933 A1@300 target. -/
theorem c2_amended_witness :
    ((4 ∈ ([4] : List ℕ)) ↔ needScale 7016 9933 100 100 > (3.2 : ℚ)) ∧
    ((2 ∈ ([4, 2] : List ℕ)) ↔ needScale 7016 9933 400 400 > (1.6 : ℚ)) ∧
    (([4, 2] : List ℕ) = [4] ∨ ([4, 2] : List ℕ) = [4] ++ [2]) ∧
    ([4, 2] : List ℕ).length ≤ 2 :=
  c2_amended engineTwoPass true 512 7016 9933 100 100 false
    ⟨400, 400, false, 1, [4],
      [.prog 0, .prog 5, .prog 6, .prog 60, .preview]⟩
    ⟨800, 800, false, 2, [4, 2],
      [.prog 0, .prog 5, .prog 6, .prog 60, .preview,
       .prog 61, .prog 85, .preview]⟩
    (by decide) (by decide) (by decide) (by decide) (by decide) (by decide)

theorem lookupPaper_cases {paper : String} {wmm hmm : ℕ}
    (hl : lookupPaper paper = some (wmm, hmm)) :
    (wmm, hmm) = (594, 841) ∨ (wmm, hmm) = (420, 594) ∨ (wmm, hmm) = (297, 420) := by
  unfold lookupPaper A_SIZES_MM at hl
  simp only [List.lookup] at hl
  split at hl
  · simp_all
  · split at hl
    · simp_all
    · split at hl
      · simp_all
      · simp_all

theorem targetAxis_eq (mm dpi : ℕ) (h : 254 ≤ mm * dpi * 10) :
    pyRoundN (mm * dpi * 10) 254 =
      max 1 (pyRound ((mm : ℚ) / (25.4 : ℚ) * (dpi : ℚ))).toNat := by
  have harg : ((mm * dpi * 10 : ℕ) : ℚ) / (254 : ℚ) = (mm : ℚ) / (25.4 : ℚ) * (dpi : ℚ) := by
    push_cast
    rw [div_mul_eq_mul_div, div_eq_div_iff (by norm_num) (by norm_num)]
    ring_nf
  have e := pyRoundN_eq (mm * dpi * 10) 254 (by norm_num)
  simp only [Nat.cast_ofNat] at e
  rw [harg] at e
  have h1 : (1 : ℚ) ≤ (mm : ℚ) / (25.4 : ℚ) * (dpi : ℚ) := by
    rw [← harg, le_div_iff₀ (by norm_num : (0:ℚ) < 254), one_mul]
    exact_mod_cast h
  have h2 : 1 ≤ pyRound ((mm : ℚ) / (25.4 : ℚ) * (dpi : ℚ)) := one_le_pyRound h1
  rw [← e] at h2 ⊢
  rw [Int.toNat_natCast]
  have h3 : 1 ≤ pyRoundN (mm * dpi * 10) 254 := by exact_mod_cast h2
  omega

/-- C4: for every supported paper size, positive DPI and orientation flag,
`target_pixels` converts each millimetre dimension to inches (divide by
25.4), multiplies by the DPI, rounds to the nearest integer with a minimum of
1 pixel per axis, and swaps the pixel pair when `portrait` is false; in
particular A1 (594×841 mm) at 300 DPI portrait yields exactly (7016, 9933). -/
theorem c4_target_pixels (paper : String) (wmm hmm dpi : ℕ) (portrait : Bool)
    (hl : lookupPaper paper = some (wmm, hmm)) (hdpi : 1 ≤ dpi) :
    target_pixels paper dpi portrait =
      some (claim_target_pixels wmm hmm dpi portrait) ∧
    target_pixels "a1" 300 true = some (7016, 9933) := by
  constructor
  · have hw : 254 ≤ wmm * dpi * 10 := by
      rcases lookupPaper_cases hl with h | h | h <;>
        (injection h with h1 h2; subst h1; omega)
    have hh : 254 ≤ hmm * dpi * 10 := by
      rcases lookupPaper_cases hl with h | h | h <;>
        (injection h with h1 h2; subst h2; omega)
    unfold target_pixels
    rw [hl]
    simp only [Option.map_some']
    congr 1
    unfold targetFromMM claim_target_pixels
    rw [targetAxis_eq wmm dpi hw, targetAxis_eq hmm dpi hh]
  · decide

/-- Witness for C4 at a concrete input. -/
theorem c4_target_pixels_witness :
    target_pixels "a1" 300 true = some (claim_target_pixels 594 841 300 true) ∧
    target_pixels "a1" 300 true = some (7016, 9933) :=
  c4_target_pixels "a1" 594 841 300 true (by decide) (by decide)

/-- C3 (evidence of the code bug): in a run needing a single 2× pass (source
3000×4000, target 7016×9933), an engine whose first attempt streams `90%`
and exits 1 and whose second attempt succeeds makes the pipeline emit the
progress sequence [0, 5, 61, 82, 61, 85, 85, 85, 95, 100]: the value 61
follows 82 because `_run_ncnn_with_retry` resets its high-water mark
`last_progress` to `base_pct` at the start of every attempt (line 249) and
unconditionally re-emits `base_pct+1` (lines 253-254).  The run succeeds and
the sequence still ends at 100, but it is not monotonically non-decreasing
across the retry, contradicting both the claim and the code's own intent
("Only emit if progress actually increased", line 272). -/
theorem c3_progress_not_monotone :
    progsOf (process_exact engineRetryThenOk
        { reqBase with srcW := 3000, srcH := 4000 }).events =
      [0, 5, 61, 82, 61, 85, 85, 85, 95, 100] ∧
    ¬ List.Chain' (· ≤ ·) ([0, 5, 61, 82, 61, 85, 85, 85, 95, 100] : List ℕ) ∧
    (process_exact engineRetryThenOk
        { reqBase with srcW := 3000, srcH := 4000 }).result =
      Except.ok ⟨7016, 9933, 300, "RGB", false, 7016, 9933, 0, 0⟩ ∧
    ([0, 5, 61, 82, 61, 85, 85, 85, 95, 100] : List ℕ).getLast? = some 100 := by
  refine ⟨by decide, ?_, by decide, by decide⟩
  intro h
  simp only [List.chain'_cons, List.chain'_singleton] at h
  omega

/-- C9, counterexample to the claim as stated: a run whose deterministic
output name already exists (`outFileExists = true`) still writes to exactly
that unsuffixed name — `process_exact` derives the name at `pipeline.py`
lines 430-431 and never consults the existing file or appends a suffix, so
the prior run's output is overwritten. -/
theorem c9_counterexample :
    ({ reqBase with outFileExists := true } : PRequest).outFileExists = true ∧
    (process_exact okEngine400 { reqBase with outFileExists := true }).wroteFinal
      = true ∧
    (process_exact okEngine400 { reqBase with outFileExists := true }).outName =
      namer_candidate "poster" 594 841 300 "png" 0 ∧
    (process_exact okEngine400 { reqBase with outFileExists := true }).outName ≠
      namer_candidate "poster" 594 841 300 "png" 1 := by
  refine ⟨by decide, by decide, by decide, by decide⟩

theorem process_exact_outName (engine : ℕ → Engine) (req : PRequest)
    (wmm hmm : ℕ) (hl : lookupPaper req.paper = some (wmm, hmm))
    (hwf : (process_exact engine req).wroteFinal = true) :
    (process_exact engine req).outName = pipelineOutName req.stem wmm hmm req.dpi := by
  unfold process_exact at hwf ⊢
  split_ifs at hwf ⊢ <;> try simp_all
  all_goals (
    rcases hlp : lookupPaper req.paper with _ | ⟨wmm2, hmm2⟩ <;>
      (try rw [hlp] at hwf) <;> (try rw [hlp]) <;>
      (try dsimp only at hwf ⊢) <;> try simp_all)
  all_goals (
    rcases hstage : upscaleStage engine req.fp16 (64 ⊔ req.tilesize ⊓ 512)
        (targetFromMM wmm hmm req.dpi req.portrait).1
        (targetFromMM wmm hmm req.dpi req.portrait).2
        req.srcW req.srcH req.srcBlank with ⟨e2, st⟩ | st <;>
      (try rw [hstage] at hwf) <;> (try rw [hstage]) <;>
      (try dsimp only at hwf ⊢) <;> try simp_all)
  all_goals (split_ifs at hwf ⊢ <;> try simp_all)

/-- C9, amended: the controller's `default_output_namer` does append a
numeric suffix when the deterministic name is taken (so the name it picks
never collides), but `process_exact` itself always writes to the unsuffixed
deterministic path `<stem>__<width_mm>x<height_mm>mm_<dpi>dpi.png`,
overwriting whatever is there; the namer's collision-avoiding choice is not
what the pipeline uses. -/
theorem c9_amended (base : String) (wmm hmm dpi : ℕ) (ext : String)
    (existing : List String)
    (h0 : namer_candidate base wmm hmm dpi ext 0 ∈ existing)
    (h1 : namer_candidate base wmm hmm dpi ext 1 ∉ existing) :
    default_output_namer base wmm hmm dpi ext existing =
      namer_candidate base wmm hmm dpi ext 1 ∧
    (∀ (engine : ℕ → Engine) (req : PRequest) (wmm2 hmm2 : ℕ),
      lookupPaper req.paper = some (wmm2, hmm2) →
      (process_exact engine req).wroteFinal = true →
      (process_exact engine req).outName =
        pipelineOutName req.stem wmm2 hmm2 req.dpi) := by
  constructor
  · unfold default_output_namer
    obtain ⟨n, hn⟩ : ∃ n, existing.length = n + 1 :=
      ⟨existing.length - 1, by
        have := List.length_pos.mpr (List.ne_nil_of_mem h0); omega⟩
    rw [hn]
    simp only [namerAux, Nat.zero_add]
    rw [if_pos h0, if_neg h1]
  · intro engine req wmm2 hmm2 hl hwf
    exact process_exact_outName engine req wmm2 hmm2 hl hwf

/-- Witness for the amended C9 at a concrete input: with the deterministic
name already taken, the namer returns the `_1`-suffixed name. -/
theorem c9_amended_witness :
    default_output_namer "poster" 594 841 300 "png"
        ["poster__594x841mm_300dpi.png"] =
      namer_candidate "poster" 594 841 300 "png" 1 :=
  (c9_amended "poster" 594 841 300 "png" ["poster__594x841mm_300dpi.png"]
    (by decide) (by decide)).1

theorem retryAux_length_le (engine : Engine) (fp16 : Bool) (base step : ℕ) :
    ∀ (fuel i tile : ℕ),
      (retryAux engine fp16 base step i tile fuel).attempts.length ≤ fuel := by
  intro fuel
  induction fuel with
  | zero => intro i tile; simp [retryAux]
  | succ n ih =>
    intro i tile
    simp only [retryAux]
    split_ifs with h1 h2 h3 h4
    · simp
    · simpa using Nat.succ_le_succ (ih (i + 1) tile)
    · simp
    · simpa using Nat.succ_le_succ (ih (i + 1) (max 64 (tile / 2)))
    · simp
    · simp

theorem retryAux_length_pos (engine : Engine) (fp16 : Bool) (base step : ℕ)
    (n i tile : ℕ) :
    1 ≤ (retryAux engine fp16 base step i tile (n + 1)).attempts.length := by
  simp only [retryAux]
  split_ifs <;> simp

theorem retryAux_fp16 (engine : Engine) (fp16 : Bool) (base step : ℕ) :
    ∀ (fuel i tile j : ℕ) (q : AttemptParams),
      (retryAux engine fp16 base step i tile fuel).attempts.get? j = some q →
      q.fp16 = (fp16 && (i + j == 0)) := by
  intro fuel
  induction fuel with
  | zero => intro i tile j q h; simp [retryAux] at h
  | succ n ih =>
    intro i tile j q h
    simp only [retryAux] at h
    split_ifs at h with h1 h2 h3 h4
    · rcases j with _ | j
      · simp only [List.get?] at h
        injection h with h
        subst h
        rfl
      · simp [List.get?] at h
    · rcases j with _ | j
      · simp only [List.get?] at h
        injection h with h
        subst h
        rfl
      · simp only [List.get?] at h
        have := ih (i + 1) tile j q h
        rw [this]
        have harith : i + 1 + j = i + (j + 1) := by omega
        rw [harith]
    · rcases j with _ | j
      · simp only [List.get?] at h
        injection h with h
        subst h
        rfl
      · simp [List.get?] at h
    · rcases j with _ | j
      · simp only [List.get?] at h
        injection h with h
        subst h
        rfl
      · simp only [List.get?] at h
        have := ih (i + 1) (max 64 (tile / 2)) j q h
        rw [this]
        have harith : i + 1 + j = i + (j + 1) := by omega
        rw [harith]
    · rcases j with _ | j
      · simp only [List.get?] at h
        injection h with h
        subst h
        rfl
      · simp [List.get?] at h
    · rcases j with _ | j
      · simp only [List.get?] at h
        injection h with h
        subst h
        rfl
      · simp [List.get?] at h

theorem retryAux_tile_first (engine : Engine) (fp16 : Bool) (base step : ℕ)
    (n i tile : ℕ) :
    ((retryAux engine fp16 base step i tile (n + 1)).attempts.get? 0).map
      AttemptParams.tile = some tile := by
  simp only [retryAux]
  split_ifs <;> simp [List.get?]

theorem retryAux_tile_step (engine : Engine) (fp16 : Bool) (base step : ℕ) :
    ∀ (fuel i tile j : ℕ) (p q : AttemptParams),
      (retryAux engine fp16 base step i tile fuel).attempts.get? j = some p →
      (retryAux engine fp16 base step i tile fuel).attempts.get? (j + 1) = some q →
      ((engine (i + j) p).exitCode ≠ 0 ∧ q.tile = p.tile) ∨
      ((engine (i + j) p).exitCode = 0 ∧
        validate_png_output (engine (i + j) p).outFile = false ∧
        q.tile = max 64 (p.tile / 2)) := by
  intro fuel
  induction fuel with
  | zero => intro i tile j p q hp hq; simp [retryAux] at hp
  | succ n ih =>
    intro i tile j p q hp hq
    simp only [retryAux] at hp hq
    split_ifs at hp hq with h1 h2 h3 h4
    · simp [List.get?] at hq
    · rcases j with _ | j
      · simp only [List.get?] at hp hq
        injection hp with hp
        subst hp
        rcases n with _ | m
        · simp [retryAux] at hq
        · have hfirst := retryAux_tile_first engine fp16 base step m (i + 1) tile
          rw [hq] at hfirst
          simp only [Option.map_some'] at hfirst
          injection hfirst with hfirst
          left
          exact ⟨by simpa using h1, hfirst⟩
      · simp only [List.get?] at hp hq
        have := ih (i + 1) tile j p q hp hq
        have harith : i + 1 + j = i + (j + 1) := by omega
        rw [harith] at this
        exact this
    · simp [List.get?] at hq
    · rcases j with _ | j
      · simp only [List.get?] at hp hq
        injection hp with hp
        subst hp
        rcases n with _ | m
        · simp [retryAux] at hq
        · have hfirst := retryAux_tile_first engine fp16 base step m (i + 1)
            (max 64 (tile / 2))
          rw [hq] at hfirst
          simp only [Option.map_some'] at hfirst
          injection hfirst with hfirst
          right
          refine ⟨?_, by simpa using h3, hfirst⟩
          simp only [Nat.add_zero]
          omega
      · simp only [List.get?] at hp hq
        have := ih (i + 1) (max 64 (tile / 2)) j p q hp hq
        have harith : i + 1 + j = i + (j + 1) := by omega
        rw [harith] at this
        exact this
    · simp [List.get?] at hq
    · simp [List.get?] at hq

theorem retryAux_error_length (engine : Engine) (fp16 : Bool) (base step : ℕ) :
    ∀ (fuel i tile : ℕ) (err : RetryErr),
      (retryAux engine fp16 base step i tile fuel).result = .error err →
      (retryAux engine fp16 base step i tile fuel).attempts.length = fuel := by
  intro fuel
  induction fuel with
  | zero => intro i tile err h; simp [retryAux]
  | succ n ih =>
    intro i tile err h
    simp only [retryAux] at h ⊢
    split_ifs at h ⊢ with h1 h2 h3 h4
    all_goals first
      | simp_all
      | (simp only [List.length_cons]; rw [ih (i + 1) tile err h])
      | (simp only [List.length_cons]; rw [ih (i + 1) (max 64 (tile / 2)) err h])
      | simp at h

theorem retryAux_ok_valid (engine : Engine) (fp16 : Bool) (base step : ℕ) :
    ∀ (fuel i tile : ℕ) (f : OutFile),
      (retryAux engine fp16 base step i tile fuel).result = .ok f →
      validate_png_output f = true := by
  intro fuel
  induction fuel with
  | zero => intro i tile f h; simp [retryAux] at h
  | succ n ih =>
    intro i tile f h
    simp only [retryAux] at h
    split_ifs at h with h1 h2 h3 h4
    all_goals first
      | (exact ih (i + 1) tile f h)
      | (exact ih (i + 1) (max 64 (tile / 2)) f h)
      | (simp only [Except.ok.injEq] at h; subst h;
         simp only [Bool.not_eq_false] at h3; exact h3)
      | simp at h

/-- C1, counterexample to the claim as stated: against an engine that always
exits 0 but always produces a uniformly blank output, a pass requested with
half-precision and tile size 512 runs the attempts
(512, fp16), (256, no fp16), (128, no fp16): the tile size is already halved
on the *first* retry, together with the fp16 disable, rather than in the
claimed fixed order (first disable half-precision only, then halve the tile,
which would give (512, fp16), (512, no fp16), (256, no fp16)); and the final
error after all attempts (`RetryErr.invalidPng`, from `pipeline.py` line 306)
carries no captured subprocess output — only the non-zero-exit error
(line 295) does. -/
theorem c1_counterexample :
    (run_ncnn_with_retry engineAllBlank true 512 0 0).attempts =
      [⟨512, true⟩, ⟨256, false⟩, ⟨128, false⟩] ∧
    ([⟨512, true⟩, ⟨256, false⟩, ⟨128, false⟩] : List AttemptParams) ≠
      [⟨512, true⟩, ⟨512, false⟩, ⟨256, false⟩] ∧
    (run_ncnn_with_retry engineAllBlank true 512 0 0).result =
      .error .invalidPng := by
  refine ⟨by decide, by decide, by decide⟩

/-- C1, amended: an attempt counts as failed exactly when the exit code is
non-zero or the output file fails `_validate_png_output` (missing, zero
bytes, undecodable, non-positive dimension, or uniformly blank); failed
attempts are retried immediately up to 3 attempts total; half-precision is
passed only on the first attempt, so every retry runs with it disabled and it
stays disabled; a retry that follows an invalid-output failure halves the
tile size (floored at 64) — so the first such retry relaxes both settings at
once — while a retry after a non-zero exit keeps the tile size; only after
all 3 attempts fail is an error raised, which carries the captured subprocess
output only when the last failure was a non-zero exit. -/
theorem c1_amended (engine : Engine) (fp16 : Bool) (tilesize base step : ℕ) :
    (1 ≤ (run_ncnn_with_retry engine fp16 tilesize base step).attempts.length ∧
     (run_ncnn_with_retry engine fp16 tilesize base step).attempts.length ≤ 3) ∧
    (((run_ncnn_with_retry engine fp16 tilesize base step).attempts.get? 0).map
        AttemptParams.tile = some (max 64 (min tilesize 512))) ∧
    (∀ j q,
      (run_ncnn_with_retry engine fp16 tilesize base step).attempts.get? j
        = some q →
      q.fp16 = (fp16 && (j == 0))) ∧
    (∀ j p q,
      (run_ncnn_with_retry engine fp16 tilesize base step).attempts.get? j
        = some p →
      (run_ncnn_with_retry engine fp16 tilesize base step).attempts.get? (j + 1)
        = some q →
      ((engine j p).exitCode ≠ 0 ∧ q.tile = p.tile) ∨
      ((engine j p).exitCode = 0 ∧
        validate_png_output (engine j p).outFile = false ∧
        q.tile = max 64 (p.tile / 2))) ∧
    (∀ err,
      (run_ncnn_with_retry engine fp16 tilesize base step).result = .error err →
      (run_ncnn_with_retry engine fp16 tilesize base step).attempts.length = 3) ∧
    (∀ f,
      (run_ncnn_with_retry engine fp16 tilesize base step).result = .ok f →
      validate_png_output f = true) := by
  unfold run_ncnn_with_retry
  refine ⟨⟨retryAux_length_pos _ _ _ _ 2 0 _, retryAux_length_le _ _ _ _ 3 0 _⟩,
    retryAux_tile_first _ _ _ _ 2 0 _, ?_, ?_, ?_, ?_⟩
  · intro j q h
    have hr := retryAux_fp16 engine fp16 base step 3 0 _ j q h
    simpa using hr
  · intro j p q hp hq
    have hr := retryAux_tile_step engine fp16 base step 3 0 _ j p q hp hq
    simp only [Nat.zero_add] at hr
    exact hr
  · intro err h
    exact retryAux_error_length engine fp16 base step 3 0 _ err h
  · intro f h
    exact retryAux_ok_valid engine fp16 base step 3 0 _ f h

/-- Witness for the amended C1 at a concrete input: the always-blank engine
exhausts all 3 attempts, and the step from attempt 1 to attempt 2 is an
invalid-output failure that halves the tile. -/
theorem c1_amended_witness :
    (1 ≤ (run_ncnn_with_retry engineAllBlank true 512 0 0).attempts.length ∧
     (run_ncnn_with_retry engineAllBlank true 512 0 0).attempts.length ≤ 3) ∧
    (run_ncnn_with_retry engineAllBlank true 512 0 0).attempts.length = 3 ∧
    (((engineAllBlank 0 ⟨512, true⟩).exitCode ≠ 0 ∧
        (⟨256, false⟩ : AttemptParams).tile = (⟨512, true⟩ : AttemptParams).tile) ∨
     ((engineAllBlank 0 ⟨512, true⟩).exitCode = 0 ∧
        validate_png_output (engineAllBlank 0 ⟨512, true⟩).outFile = false ∧
        (⟨256, false⟩ : AttemptParams).tile =
          max 64 ((⟨512, true⟩ : AttemptParams).tile / 2))) :=
  ⟨(c1_amended engineAllBlank true 512 0 0).1,
   (c1_amended engineAllBlank true 512 0 0).2.2.2.2.1 .invalidPng (by decide),
   (c1_amended engineAllBlank true 512 0 0).2.2.2.1 0 ⟨512, true⟩ ⟨256, false⟩
     (by decide) (by decide)⟩

end PosterMaker
